import Mathlib

/-!
Verification of the employee ranking application.

Shallow embedding of the repository's core logic:
* `rankEmployees` (service module): merging a model ranking response onto the
  roster by id and sorting by rank descending.
* `processPdfToImages` (index.tsx): the PDF page rendering pipeline with its
  error classification.
* The application state handlers `handleAddEmployee`, `handleRankEmployees`,
  `handleDistributeTasks`, and the form handler `handleFileChange`.

Remote calls and the PDF backend are opaque collaborators; their outcomes are
passed in as explicit inputs (`Except` values and rendering functions), so the
embedded functions capture exactly the local control flow of the source.
-/

namespace EmployeeRanker

/-- `AnalyzedEmployee` record from the repository type declarations:
id, name, summary, skills, experienceYears. -/
structure AnalyzedEmployee where
  id : String
  name : String
  summary : String
  skills : List String
  experienceYears : ℚ
deriving DecidableEq, Repr

/-- `RankedEmployee` record: an `AnalyzedEmployee` together with the
`rank` and `justification` fields added by the ranking step. -/
structure RankedEmployee where
  id : String
  name : String
  summary : String
  skills : List String
  experienceYears : ℚ
  rank : ℤ
  justification : String
deriving DecidableEq, Repr

/-- One element of the parsed ranking response array:
schema { id, rank, justification }. -/
structure RankingEntry where
  id : String
  rank : ℤ
  justification : String
deriving DecidableEq, Repr

/-- `TaskAssignment` record: { employeeId, tasks }. -/
structure TaskAssignment where
  employeeId : String
  tasks : List String
deriving DecidableEq, Repr

/-- The object spread `{ ...emp, ...ranking }`: every field of `emp`,
with the response entry's `id`, `rank` and `justification` written on top. -/
def mergeEntry (emp : AnalyzedEmployee) (r : RankingEntry) : RankedEmployee :=
  { id := r.id
    name := emp.name
    summary := emp.summary
    skills := emp.skills
    experienceYears := emp.experienceYears
    rank := r.rank
    justification := r.justification }

/-- The default branch `{ ...emp, rank: 0, justification: 'Not ranked' }`. -/
def defaultRanked (emp : AnalyzedEmployee) : RankedEmployee :=
  { id := emp.id
    name := emp.name
    summary := emp.summary
    skills := emp.skills
    experienceYears := emp.experienceYears
    rank := 0
    justification := "Not ranked" }

/-- The body of `employees.map(emp => ...)`: look the employee's id up in the
response array with `find` (first match) and merge, or fall back to the
default entry. -/
def mergeOne (rankedData : List RankingEntry) (emp : AnalyzedEmployee) :
    RankedEmployee :=
  match rankedData.find? (fun r => r.id == emp.id) with
  | some r => mergeEntry emp r
  | none => defaultRanked emp

/-- The comparator `(a, b) => b.rank - a.rank`: `a` precedes `b`
when `b.rank ≤ a.rank` (rank descending). -/
def rankGE (a b : RankedEmployee) : Prop := b.rank ≤ a.rank

instance : DecidableRel rankGE := fun a b =>
  inferInstanceAs (Decidable (b.rank ≤ a.rank))

instance : IsTotal RankedEmployee rankGE :=
  ⟨fun a b => le_total b.rank a.rank⟩

instance : IsTrans RankedEmployee rankGE :=
  ⟨fun _ _ _ h1 h2 => le_trans h2 h1⟩

/-- The pure core of `rankEmployees` after the response has been parsed:
`employees.map(...)` followed by `.sort((a, b) => b.rank - a.rank)`
(a stable sort by rank descending). -/
def rankEmployeesPure (employees : List AnalyzedEmployee)
    (rankedData : List RankingEntry) : List RankedEmployee :=
  (employees.map (mergeOne rankedData)).insertionSort rankGE

/-- A failure of the remote ranking call: either the transport or the model
errored, or `JSON.parse` of the response text failed. Both are caught by the
same `catch` block in the source. -/
inductive RemoteFailure where
  | networkError (msg : String)
  | parseError (msg : String)
deriving DecidableEq, Repr

/-- Message of the error rethrown by `rankEmployees`' catch block. -/
def rankingFailedMsg : String := "Failed to rank employees with Gemini API."

/-- `rankEmployees` with the outcome of the remote call (parsed response array
or failure) passed in explicitly: any failure is caught and rethrown as the
single `RankingFailed` error; a parsed array is merged and sorted. -/
def rankEmployeesModel (employees : List AnalyzedEmployee)
    (response : Except RemoteFailure (List RankingEntry)) :
    Except String (List RankedEmployee) :=
  match response with
  | Except.error _ => Except.error rankingFailedMsg
  | Except.ok rankedData => Except.ok (rankEmployeesPure employees rankedData)

/-- The in-memory state held by the `App` component: roster, ranking result,
assignment result, the two busy flags and the error banner. -/
structure AppState where
  employees : List AnalyzedEmployee
  rankedEmployees : List RankedEmployee
  assignments : List TaskAssignment
  isRanking : Bool
  isDistributing : Bool
  error : Option String
deriving DecidableEq, Repr

/-- `handleAddEmployee`: append the new employee to the roster and reset the
ranked roster and the assignments to empty arrays. -/
def handleAddEmployee (s : AppState) (employee : AnalyzedEmployee) : AppState :=
  { s with
    employees := s.employees ++ [employee]
    rankedEmployees := []
    assignments := [] }

/-- `handleRankEmployees`, with the remote outcome passed in: return
immediately on an empty roster; otherwise clear the error, call
`rankEmployees`, store the full result on success or the error message on
failure, and clear the busy flag in `finally`. -/
def handleRankEmployees (s : AppState)
    (response : Except RemoteFailure (List RankingEntry)) : AppState :=
  if s.employees.length = 0 then s
  else
    match rankEmployeesModel s.employees response with
    | Except.ok result =>
        { s with rankedEmployees := result, error := none, isRanking := false }
    | Except.error msg =>
        { s with error := some msg, isRanking := false }

/-- `text.split('\n')` on the character sequence: split into the maximal
runs between newline characters (JavaScript semantics: `"".split` gives one
empty piece, a trailing newline gives a trailing empty piece). -/
def splitNewlines : List Char → List (List Char)
  | [] => [[]]
  | c :: rest =>
    match splitNewlines rest with
    | [] => [[c]]
    | g :: gs => if c = '\n' then [] :: g :: gs else (c :: g) :: gs

/-- Rejoin split pieces with newline separators (specification helper for
`splitNewlines`). -/
def joinNewlines : List (List Char) → List Char
  | [] => []
  | [g] => g
  | g :: gs => g ++ '\n' :: joinNewlines gs

/-- `tasksText.split('\n').filter(t => t.trim() !== '')`: the test
`t.trim() !== ''` holds exactly when the line has a non-whitespace
character. -/
def splitTasks (tasksText : String) : List String :=
  ((splitNewlines tasksText.data).map (fun cs => String.mk cs)).filter
    (fun t => !(t.data.all Char.isWhitespace))

/-- `handleDistributeTasks`, with the remote call modelled as a function from
the task list to an outcome. The second component of the result records the
task lists of the remote requests actually issued (empty when the guards
return early). -/
def handleDistributeTasks (s : AppState) (tasksText : String)
    (remote : List String → Except String (List TaskAssignment)) :
    AppState × List (List String) :=
  if s.rankedEmployees.length = 0 then (s, [])
  else
    let tasks := splitTasks tasksText
    if tasks.length = 0 then (s, [])
    else
      match remote tasks with
      | Except.ok result =>
          ({ s with assignments := result, error := none,
                    isDistributing := false }, [tasks])
      | Except.error msg =>
          ({ s with error := some msg, isDistributing := false }, [tasks])

/-- A file offered to the upload input: name and MIME type. -/
structure UploadFile where
  fileName : String
  type : String
deriving DecidableEq, Repr

/-- The state visible to `handleFileChange`: the form's `name` field, the
selected resume file, the raw value of the file input element, the roster, and
the list of messages passed to `onError` so far (in order). -/
structure FormState where
  employeeName : String
  resumeFile : Option UploadFile
  fileInputValue : String
  employees : List AnalyzedEmployee
  notifications : List String
deriving DecidableEq, Repr

/-- Message passed to `onError` when a non-PDF file is selected. -/
def invalidUploadMsg : String := "Please upload a valid PDF file."

/-- `handleFileChange`: if a file is selected and its MIME type is
`application/pdf`, store it and clear the error; otherwise notify
`InvalidUpload` once, drop the stored file and clear the input element. -/
def handleFileChange (s : FormState) (files : List UploadFile) : FormState :=
  match files with
  | [] => s
  | f :: _ =>
    if f.type = "application/pdf" then
      { s with
        resumeFile := some f
        notifications := s.notifications ++ [""] }
    else
      { s with
        notifications := s.notifications ++ [invalidUploadMsg]
        resumeFile := none
        fileInputValue := "" }

/-- An error thrown by the PDF backend, identified by its `name` property
(the source tests `error.name === 'PasswordException'`). -/
structure JsError where
  name : String
deriving DecidableEq, Repr

/-- One page of an opened PDF document (content abstract). -/
structure PdfPage where
  content : String
deriving DecidableEq, Repr

/-- An opened PDF document: its ordered pages. -/
structure PdfDocument where
  pages : List PdfPage
deriving DecidableEq, Repr

/-- One output entry of the pipeline: `{ mimeType, data }`. -/
structure PdfImage where
  mimeType : String
  data : String
deriving DecidableEq, Repr

/-- Outcome of the `FileReader` step: `onerror` fired, `onload` fired with a
null result, or `onload` fired with the file bytes. -/
inductive FileReadResult where
  | readError
  | emptyResult
  | ok
deriving DecidableEq, Repr

/-- Message when the rendering library is not loaded. -/
def envUnavailableMsg : String :=
  "PDF processing library is not loaded. Please wait a moment and try again."

/-- Message rejected for a password-protected document. -/
def unsupportedDocumentMsg : String :=
  "The PDF file is password-protected. Please provide a decrypted file."

/-- Message rejected for any other parse or render failure. -/
def corruptDocumentMsg : String :=
  "Failed to process the PDF file. It might be corrupted or in an unsupported format."

/-- The `catch` block of `processPdfToImages`: a `PasswordException` becomes
the password-protected message, anything else the corrupt-document message. -/
def pdfCatchMessage (e : JsError) : String :=
  if e.name = "PasswordException" then unsupportedDocumentMsg
  else corruptDocumentMsg

/-- The page loop: for `i = 1..N`, get the page, compute the viewport at scale
1.5, render into a canvas and push `{ mimeType: 'image/jpeg', data }`; the
first backend failure aborts the loop (and is classified by the catch). The
backend's per-page behavior is the function `render : page → scale →
outcome`, covering `getViewport`/`render`/`toDataURL` jointly. -/
def renderPages (render : PdfPage → ℚ → Except JsError String) :
    List PdfPage → Except JsError (List PdfImage)
  | [] => Except.ok []
  | p :: ps =>
    match render p (3 / 2 : ℚ) with
    | Except.error e => Except.error e
    | Except.ok d =>
      match renderPages render ps with
      | Except.error e => Except.error e
      | Except.ok rest => Except.ok ({ mimeType := "image/jpeg", data := d } :: rest)

/-- `processPdfToImages` with the collaborators' outcomes passed in: the
library-availability check, the `FileReader` outcome, the `getDocument`
outcome, and the per-page rendering behavior. -/
def processPdfToImages (libLoaded : Bool) (readResult : FileReadResult)
    (docResult : Except JsError PdfDocument)
    (render : PdfPage → ℚ → Except JsError String) :
    Except String (List PdfImage) :=
  if libLoaded = false then Except.error envUnavailableMsg
  else
    match readResult with
    | FileReadResult.readError =>
        Except.error "An error occurred while reading the file."
    | FileReadResult.emptyResult => Except.error "Failed to read file"
    | FileReadResult.ok =>
      match docResult with
      | Except.error e => Except.error (pdfCatchMessage e)
      | Except.ok doc =>
        match renderPages render doc.pages with
        | Except.error e => Except.error (pdfCatchMessage e)
        | Except.ok imgs => Except.ok imgs

/-! ### Helper lemmas -/

theorem mergeOne_preserves (rd : List RankingEntry) (emp : AnalyzedEmployee) :
    (mergeOne rd emp).id = emp.id ∧ (mergeOne rd emp).name = emp.name ∧
    (mergeOne rd emp).summary = emp.summary ∧
    (mergeOne rd emp).skills = emp.skills ∧
    (mergeOne rd emp).experienceYears = emp.experienceYears := by
  unfold mergeOne
  cases hfind : rd.find? (fun r => r.id == emp.id) with
  | none => exact ⟨rfl, rfl, rfl, rfl, rfl⟩
  | some r =>
    have hid : r.id = emp.id := by
      have := List.find?_some hfind
      simpa using this
    exact ⟨hid, rfl, rfl, rfl, rfl⟩

theorem renderPages_ok (render : PdfPage → ℚ → Except JsError String)
    (dataOf : PdfPage → String) :
    ∀ ps : List PdfPage, (∀ p ∈ ps, render p (3 / 2 : ℚ) = Except.ok (dataOf p)) →
      renderPages render ps =
        Except.ok (ps.map (fun p => { mimeType := "image/jpeg", data := dataOf p }))
  | [], _ => rfl
  | p :: ps, h => by
    have hp : render p (3 / 2 : ℚ) = Except.ok (dataOf p) := h p (by simp)
    have hps := renderPages_ok render dataOf ps (fun q hq => h q (by simp [hq]))
    simp [renderPages, hp, hps]

theorem splitNewlines_ne_nil (cs : List Char) : splitNewlines cs ≠ [] := by
  cases cs with
  | nil => simp [splitNewlines]
  | cons c rest =>
    unfold splitNewlines
    cases splitNewlines rest with
    | nil => simp
    | cons g gs => by_cases hc : c = '\n' <;> simp [hc]

theorem splitNewlines_cons (c : Char) (rest : List Char) (g : List Char)
    (gs : List (List Char)) (h : splitNewlines rest = g :: gs) :
    splitNewlines (c :: rest) =
      if c = '\n' then [] :: g :: gs else (c :: g) :: gs := by
  unfold splitNewlines
  rw [h]

theorem joinNewlines_splitNewlines (cs : List Char) :
    joinNewlines (splitNewlines cs) = cs := by
  induction cs with
  | nil => rfl
  | cons c rest ih =>
    cases h : splitNewlines rest with
    | nil => exact absurd h (splitNewlines_ne_nil rest)
    | cons g gs =>
      rw [h] at ih
      rw [splitNewlines_cons c rest g gs h]
      by_cases hc : c = '\n'
      · rw [if_pos hc, hc]
        show [] ++ '\n' :: joinNewlines (g :: gs) = '\n' :: rest
        rw [ih]
        rfl
      · rw [if_neg hc]
        cases gs with
        | nil =>
          show c :: g = c :: rest
          rw [show g = rest from ih]
        | cons g2 gs2 =>
          show (c :: g) ++ '\n' :: joinNewlines (g2 :: gs2) = c :: rest
          rw [← ih]
          rfl

theorem newline_not_mem_splitNewlines (cs : List Char) :
    ∀ g ∈ splitNewlines cs, '\n' ∉ g := by
  induction cs with
  | nil =>
    intro g hg
    simp [splitNewlines] at hg
    simp [hg]
  | cons c rest ih =>
    intro g hg
    cases h : splitNewlines rest with
    | nil => exact absurd h (splitNewlines_ne_nil rest)
    | cons g1 gs1 =>
      rw [splitNewlines_cons c rest g1 gs1 h] at hg
      by_cases hc : c = '\n'
      · rw [if_pos hc] at hg
        rcases List.mem_cons.mp hg with hg | hg
        · simp [hg]
        · exact ih g (by rw [h]; exact hg)
      · rw [if_neg hc] at hg
        rcases List.mem_cons.mp hg with hg | hg
        · subst hg
          intro hmem
          rcases List.mem_cons.mp hmem with hmem | hmem
          · exact hc hmem.symm
          · exact ih g1 (by rw [h]; exact List.mem_cons_self g1 gs1) hmem
        · exact ih g (by rw [h]; exact List.mem_cons_of_mem g1 hg)

/-! ### Claims -/

/-- C1: for every roster and every ranking response array, a roster entry
whose id does not occur in the response array yields an output entry with
rank 0 and justification exactly "Not ranked", and the operation succeeds
(no failure) on any parsed response array. -/
theorem unranked_id_defaults (emps : List AnalyzedEmployee)
    (rd : List RankingEntry) (emp : AnalyzedEmployee) (hmem : emp ∈ emps)
    (hid : emp.id ∉ rd.map RankingEntry.id) :
    (∃ e ∈ rankEmployeesPure emps rd,
      e.id = emp.id ∧ e.rank = 0 ∧ e.justification = "Not ranked") ∧
    rankEmployeesModel emps (Except.ok rd) =
      Except.ok (rankEmployeesPure emps rd) := by
  constructor
  · have hfind : rd.find? (fun r => r.id == emp.id) = none := by
      rw [List.find?_eq_none]
      intro r hr
      simp only [beq_iff_eq]
      intro hEq
      exact hid (hEq ▸ List.mem_map_of_mem RankingEntry.id hr)
    have hmerge : mergeOne rd emp = defaultRanked emp := by
      unfold mergeOne
      rw [hfind]
    refine ⟨defaultRanked emp, ?_, rfl, rfl, rfl⟩
    rw [rankEmployeesPure, List.mem_insertionSort]
    exact hmerge ▸ List.mem_map_of_mem (mergeOne rd) hmem
  · rfl

def sampleEmp : AnalyzedEmployee :=
  { id := "e1", name := "Al", summary := "s", skills := ["Go"],
    experienceYears := 5 }

def sampleEntry : RankingEntry :=
  { id := "e2", rank := 80, justification := "Strong" }

/-- Witness for C1 at a concrete roster and response. -/
theorem unranked_id_defaults_witness :
    (sampleEmp ∈ [sampleEmp] ∧
      sampleEmp.id ∉ [sampleEntry].map RankingEntry.id) ∧
    ((∃ e ∈ rankEmployeesPure [sampleEmp] [sampleEntry],
        e.id = sampleEmp.id ∧ e.rank = 0 ∧ e.justification = "Not ranked") ∧
      rankEmployeesModel [sampleEmp] (Except.ok [sampleEntry]) =
        Except.ok (rankEmployeesPure [sampleEmp] [sampleEntry])) :=
  ⟨⟨by decide, by decide⟩,
    unranked_id_defaults [sampleEmp] [sampleEntry] sampleEmp (by decide)
      (by decide)⟩

/-- C2: for every roster and every ranking response array, in whatever order,
the returned collection is sorted non-increasing by rank. -/
theorem ranked_roster_sorted (emps : List AnalyzedEmployee)
    (rd : List RankingEntry) :
    (rankEmployeesPure emps rd).Sorted
      (fun a b : RankedEmployee => b.rank ≤ a.rank) :=
  List.sorted_insertionSort rankGE (emps.map (mergeOne rd))

/-- C3: for every roster and every ranking response array, the output has
the same length as the roster, every output entry's id occurs among the
roster ids, and matching takes the first response entry with a matching
id. -/
theorem ranking_length_ids_firstmatch (emps : List AnalyzedEmployee)
    (rd : List RankingEntry) :
    (rankEmployeesPure emps rd).length = emps.length ∧
    (∀ e ∈ rankEmployeesPure emps rd,
      e.id ∈ emps.map AnalyzedEmployee.id) ∧
    (∀ (emp : AnalyzedEmployee) (r : RankingEntry) (rest : List RankingEntry),
      r.id = emp.id → mergeOne (r :: rest) emp = mergeEntry emp r) := by
  refine ⟨?_, ?_, ?_⟩
  · rw [rankEmployeesPure, List.length_insertionSort, List.length_map]
  · intro e he
    rw [rankEmployeesPure, List.mem_insertionSort] at he
    obtain ⟨emp, hmem, rfl⟩ := List.mem_map.mp he
    rw [(mergeOne_preserves rd emp).1]
    exact List.mem_map_of_mem AnalyzedEmployee.id hmem
  · intro emp r rest h
    unfold mergeOne
    rw [List.find?_cons_of_pos _ (by simpa using h)]

def sampleMatchEntry : RankingEntry :=
  { id := "e1", rank := 80, justification := "Strong" }

/-- Witness for C3 at a concrete roster and response. -/
theorem ranking_length_ids_firstmatch_witness :
    (rankEmployeesPure [sampleEmp] [sampleMatchEntry]).length =
      ([sampleEmp] : List AnalyzedEmployee).length ∧
    mergeOne [sampleMatchEntry] sampleEmp = mergeEntry sampleEmp sampleMatchEntry :=
  ⟨(ranking_length_ids_firstmatch [sampleEmp] [sampleMatchEntry]).1,
    (ranking_length_ids_firstmatch [sampleEmp] [sampleMatchEntry]).2.2
      sampleEmp sampleMatchEntry [] (by decide)⟩

/-- C9: merging preserves the roster entry's id, name, summary, skills and
experienceYears (a matched response entry's id cannot differ, since matching
is by id equality), and the output is exactly the merged entries, reordered
only by the sort. -/
theorem rank_merge_frame (emps : List AnalyzedEmployee)
    (rd : List RankingEntry) :
    (∀ emp : AnalyzedEmployee,
      (mergeOne rd emp).id = emp.id ∧ (mergeOne rd emp).name = emp.name ∧
      (mergeOne rd emp).summary = emp.summary ∧
      (mergeOne rd emp).skills = emp.skills ∧
      (mergeOne rd emp).experienceYears = emp.experienceYears) ∧
    (rankEmployeesPure emps rd).Perm (emps.map (mergeOne rd)) :=
  ⟨fun emp => mergeOne_preserves rd emp,
    List.perm_insertionSort rankGE (emps.map (mergeOne rd))⟩

/-- C4: when the ranking operation fails (network/model error or JSON parse
failure), the caller sees the RankingFailed error message and the previously
stored ranked roster, assignments and roster are unchanged: no partial
ranking result is applied to state. -/
theorem ranking_failure_state (s : AppState) (f : RemoteFailure)
    (h : s.employees ≠ []) :
    (handleRankEmployees s (Except.error f)).rankedEmployees =
      s.rankedEmployees ∧
    (handleRankEmployees s (Except.error f)).assignments = s.assignments ∧
    (handleRankEmployees s (Except.error f)).employees = s.employees ∧
    (handleRankEmployees s (Except.error f)).error = some rankingFailedMsg := by
  have hlen : ¬ s.employees.length = 0 := by
    simpa [List.length_eq_zero] using h
  simp [handleRankEmployees, rankEmployeesModel, hlen]

def sampleState : AppState :=
  { employees := [sampleEmp], rankedEmployees := [], assignments := []
    isRanking := true, isDistributing := false, error := none }

/-- Witness for C4 at a concrete state and failure. -/
theorem ranking_failure_state_witness :
    sampleState.employees ≠ [] ∧
    ((handleRankEmployees sampleState
        (Except.error (RemoteFailure.networkError "timeout"))).rankedEmployees =
      sampleState.rankedEmployees ∧
    (handleRankEmployees sampleState
        (Except.error (RemoteFailure.networkError "timeout"))).assignments =
      sampleState.assignments ∧
    (handleRankEmployees sampleState
        (Except.error (RemoteFailure.networkError "timeout"))).employees =
      sampleState.employees ∧
    (handleRankEmployees sampleState
        (Except.error (RemoteFailure.networkError "timeout"))).error =
      some rankingFailedMsg) :=
  ⟨by decide,
    ranking_failure_state sampleState (RemoteFailure.networkError "timeout")
      (by decide)⟩

/-- C5: adding a newly analyzed employee from a state holding a ranking
appends the employee to the roster and resets both the ranked roster and the
task assignments to empty. -/
theorem add_employee_resets (s : AppState) (employee : AnalyzedEmployee)
    (_h : s.rankedEmployees ≠ []) :
    (handleAddEmployee s employee).employees = s.employees ++ [employee] ∧
    (handleAddEmployee s employee).rankedEmployees = [] ∧
    (handleAddEmployee s employee).assignments = [] :=
  ⟨rfl, rfl, rfl⟩

def sampleRanked : RankedEmployee :=
  { id := "e1", name := "Al", summary := "s", skills := ["Go"],
    experienceYears := 5, rank := 80, justification := "Strong" }

def rankedState : AppState :=
  { employees := [sampleEmp], rankedEmployees := [sampleRanked]
    assignments := [{ employeeId := "e1", tasks := ["Write report"] }]
    isRanking := false, isDistributing := false, error := none }

def sampleEmp2 : AnalyzedEmployee :=
  { id := "e2", name := "Bo", summary := "t", skills := ["Rust"],
    experienceYears := 3 }

/-- Witness for C5 at a concrete ranked state. -/
theorem add_employee_resets_witness :
    rankedState.rankedEmployees ≠ [] ∧
    ((handleAddEmployee rankedState sampleEmp2).employees =
        rankedState.employees ++ [sampleEmp2] ∧
      (handleAddEmployee rankedState sampleEmp2).rankedEmployees = [] ∧
      (handleAddEmployee rankedState sampleEmp2).assignments = []) :=
  ⟨by decide, add_employee_resets rankedState sampleEmp2 (by decide)⟩

/-- C6: selecting a file whose MIME type is not application/pdf leaves the
roster and the name field unchanged, clears the stored file and the input
element, and emits exactly one InvalidUpload notification. -/
theorem nonpdf_upload_rejected (s : FormState) (f : UploadFile)
    (rest : List UploadFile) (h : f.type ≠ "application/pdf") :
    (handleFileChange s (f :: rest)).employees = s.employees ∧
    (handleFileChange s (f :: rest)).employeeName = s.employeeName ∧
    (handleFileChange s (f :: rest)).resumeFile = none ∧
    (handleFileChange s (f :: rest)).fileInputValue = "" ∧
    (handleFileChange s (f :: rest)).notifications =
      s.notifications ++ [invalidUploadMsg] := by
  simp [handleFileChange, h]

def sampleForm : FormState :=
  { employeeName := "Al", resumeFile := none, fileInputValue := "x"
    employees := [sampleEmp], notifications := [] }

def samplePng : UploadFile := { fileName := "photo.png", type := "image/png" }

/-- Witness for C6 at a concrete form state and non-PDF file. -/
theorem nonpdf_upload_rejected_witness :
    samplePng.type ≠ "application/pdf" ∧
    ((handleFileChange sampleForm [samplePng]).employees =
        sampleForm.employees ∧
      (handleFileChange sampleForm [samplePng]).employeeName =
        sampleForm.employeeName ∧
      (handleFileChange sampleForm [samplePng]).resumeFile = none ∧
      (handleFileChange sampleForm [samplePng]).fileInputValue = "" ∧
      (handleFileChange sampleForm [samplePng]).notifications =
        sampleForm.notifications ++ [invalidUploadMsg]) :=
  ⟨by decide, nonpdf_upload_rejected sampleForm samplePng [] (by decide)⟩

/-- C10: the distribution handler uses the task text split on newlines with
whitespace-only lines discarded; with an empty ranked roster or an empty
resulting task list, no remote request is issued and the state (assignments,
error, busy flag included) is returned unchanged; otherwise the request
carries exactly the split task list. -/
theorem distribute_guards (s : AppState) (tasksText : String)
    (remote : List String → Except String (List TaskAssignment)) :
    (∀ t ∈ splitTasks tasksText, t.data.all Char.isWhitespace = false) ∧
    (∀ t ∈ splitTasks tasksText, '\n' ∉ t.data) ∧
    joinNewlines (splitNewlines tasksText.data) = tasksText.data ∧
    (s.rankedEmployees = [] →
      handleDistributeTasks s tasksText remote = (s, [])) ∧
    (splitTasks tasksText = [] →
      handleDistributeTasks s tasksText remote = (s, [])) ∧
    (s.rankedEmployees ≠ [] → splitTasks tasksText ≠ [] →
      (handleDistributeTasks s tasksText remote).2 = [splitTasks tasksText]) := by
  refine ⟨?_, ?_, joinNewlines_splitNewlines tasksText.data, ?_, ?_, ?_⟩
  · intro t ht
    have := (List.mem_filter.mp ht).2
    simpa using this
  · intro t ht
    obtain ⟨g, hg, rfl⟩ :=
      List.mem_map.mp (List.mem_filter.mp ht).1
    exact newline_not_mem_splitNewlines tasksText.data g hg
  · intro h
    simp [handleDistributeTasks, h]
  · intro h
    by_cases hr : s.rankedEmployees.length = 0
    · simp [handleDistributeTasks, hr]
    · simp [handleDistributeTasks, hr, h]
  · intro h1 h2
    have hr : ¬ s.rankedEmployees.length = 0 := by
      simpa [List.length_eq_zero] using h1
    have ht : ¬ (splitTasks tasksText).length = 0 := by
      simpa [List.length_eq_zero] using h2
    cases hrem : remote (splitTasks tasksText) with
    | ok result => simp [handleDistributeTasks, hr, ht, hrem]
    | error msg => simp [handleDistributeTasks, hr, ht, hrem]

def remoteStub : List String → Except String (List TaskAssignment) :=
  fun _ => Except.ok []

/-- Witness for C10 at concrete states and task text. -/
theorem distribute_guards_witness :
    (sampleState.rankedEmployees = [] ∧
      handleDistributeTasks sampleState "Write report" remoteStub =
        (sampleState, [])) ∧
    (rankedState.rankedEmployees ≠ [] ∧
      splitTasks "Write report\n \nFix bug" ≠ [] ∧
      (handleDistributeTasks rankedState "Write report\n \nFix bug"
          remoteStub).2 = [splitTasks "Write report\n \nFix bug"]) :=
  ⟨⟨rfl, (distribute_guards sampleState "Write report" remoteStub).2.2.2.1 rfl⟩,
    ⟨by decide, by decide,
      (distribute_guards rankedState "Write report\n \nFix bug"
          remoteStub).2.2.2.2.2 (by decide) (by decide)⟩⟩

/-- C7: an encrypted PDF (the backend surfaces a PasswordException on open)
fails with the UnsupportedDocument message and nothing else; any other open
failure, and any render failure that is not a PasswordException, fails with
the CorruptDocument message; the two messages are distinct. -/
theorem pdf_error_classification :
    (∀ (e : JsError) (render : PdfPage → ℚ → Except JsError String),
      e.name = "PasswordException" →
      processPdfToImages true FileReadResult.ok (Except.error e) render =
        Except.error unsupportedDocumentMsg) ∧
    (∀ (e : JsError) (render : PdfPage → ℚ → Except JsError String),
      e.name ≠ "PasswordException" →
      processPdfToImages true FileReadResult.ok (Except.error e) render =
        Except.error corruptDocumentMsg) ∧
    (∀ (doc : PdfDocument) (render : PdfPage → ℚ → Except JsError String)
      (e : JsError),
      renderPages render doc.pages = Except.error e →
      e.name ≠ "PasswordException" →
      processPdfToImages true FileReadResult.ok (Except.ok doc) render =
        Except.error corruptDocumentMsg) ∧
    unsupportedDocumentMsg ≠ corruptDocumentMsg := by
  refine ⟨?_, ?_, ?_, by decide⟩
  · intro e render h
    simp [processPdfToImages, pdfCatchMessage, h]
  · intro e render h
    simp [processPdfToImages, pdfCatchMessage, h]
  · intro doc render e hrender h
    simp [processPdfToImages, pdfCatchMessage, hrender, h]

def renderStub : PdfPage → ℚ → Except JsError String :=
  fun p _ => Except.ok p.content

/-- Witness for C7 at concrete backend errors. -/
theorem pdf_error_classification_witness :
    processPdfToImages true FileReadResult.ok
        (Except.error { name := "PasswordException" }) renderStub =
      Except.error unsupportedDocumentMsg ∧
    processPdfToImages true FileReadResult.ok
        (Except.error { name := "InvalidPDFException" }) renderStub =
      Except.error corruptDocumentMsg :=
  ⟨pdf_error_classification.1 { name := "PasswordException" } renderStub rfl,
    pdf_error_classification.2.1 { name := "InvalidPDFException" } renderStub
      (by decide)⟩

/-- C8: for a structurally valid, non-encrypted document whose N pages all
render successfully, the pipeline returns exactly the N page images in page
order, each produced by rendering at scale 3/2 and tagged image/jpeg. -/
theorem pdf_render_pages (doc : PdfDocument)
    (render : PdfPage → ℚ → Except JsError String) (dataOf : PdfPage → String)
    (h : ∀ p ∈ doc.pages, render p (3 / 2 : ℚ) = Except.ok (dataOf p)) :
    processPdfToImages true FileReadResult.ok (Except.ok doc) render =
      Except.ok (doc.pages.map
        (fun p => { mimeType := "image/jpeg", data := dataOf p })) ∧
    (doc.pages.map
      (fun p => ({ mimeType := "image/jpeg", data := dataOf p } : PdfImage))).length =
        doc.pages.length := by
  have hro := renderPages_ok render dataOf doc.pages h
  refine ⟨?_, by simp⟩
  simp [processPdfToImages, hro]

def sampleDoc : PdfDocument :=
  { pages := [{ content := "p1" }, { content := "p2" }] }

/-- Witness for C8 at a concrete two-page document. -/
theorem pdf_render_pages_witness :
    processPdfToImages true FileReadResult.ok (Except.ok sampleDoc) renderStub =
      Except.ok (sampleDoc.pages.map
        (fun p => { mimeType := "image/jpeg", data := p.content })) :=
  (pdf_render_pages sampleDoc renderStub PdfPage.content
    (fun _ _ => rfl)).1

end EmployeeRanker
